import Mathlib

/-!
Verification development for the nylas-resend adapter: a shallow embedding of
the bidirectional data-transformation layer (transformers.ts), the emails
facade (emails.ts) and the webhook chain (webhooks.ts), together with theorems
settling the specification claims about them.

JavaScript-specific behaviour (truthiness, regex backtracking, property access
on arbitrary values, epoch-to-ISO rendering) is embedded explicitly, so that
every definition mirrors the runtime behaviour of the source rather than its
static types.
-/

namespace NylasResend

/-- Whitespace as JavaScript sees it: the character class matched by the
regex shorthand for whitespace and stripped by String.prototype.trim. -/
def jsIsWhitespace (c : Char) : Bool :=
  c = ' ' || c = '\t' || c = '\n' || c = '\r' || c.toNat = 0x0b || c.toNat = 0x0c ||
  c.toNat = 0xA0 || c.toNat = 0x1680 || (0x2000 ≤ c.toNat && c.toNat ≤ 0x200A) ||
  c.toNat = 0x2028 || c.toNat = 0x2029 || c.toNat = 0x202F || c.toNat = 0x205F ||
  c.toNat = 0x3000 || c.toNat = 0xFEFF

/-- JavaScript line terminators; the regex dot matches any character except
these. -/
def isLineTerm (c : Char) : Bool :=
  c = '\n' || c = '\r' || c.toNat = 0x2028 || c.toNat = 0x2029

/-- Model of String.prototype.trim on the character list of a string. -/
def jsTrim (l : List Char) : List Char :=
  ((l.dropWhile jsIsWhitespace).reverse.dropWhile jsIsWhitespace).reverse

/-!
The regex of parseEmailAddress is, in words: at the start of input an optional
group consisting of a lazily captured nonempty run of non-line-terminator
characters followed by a greedy whitespace run, then a literal opening angle
bracket, a lazily captured nonempty run of non-line-terminator characters, a
literal closing angle bracket, and the end of input.

Because the closing bracket must be the final character, the second capture is
forced to cover everything strictly between the chosen opening bracket and the
final character, so its laziness collapses: for a fixed opening-bracket
position there is exactly one candidate.  Likewise the greedy whitespace run
can only ever stop at its maximal extent, since the following character must
be an opening bracket, which is not whitespace.  The remaining backtracking is
the lazy growth of the first capture, modelled by scanA below.
-/

/-- Match the regex tail after an opening bracket: the forced second capture
followed by the closing bracket at end of input.  Returns the capture when the
segment before the final closing bracket is nonempty and free of line
terminators. -/
def tailOk (l : List Char) : Option (List Char) :=
  if l.getLast? = some '>' then
    if l.dropLast.isEmpty then none
    else if l.dropLast.all (fun c => !isLineTerm c) then some l.dropLast else none
  else none

/-- Require a literal opening bracket at the current position, then match the
regex tail. -/
def checkLt : List Char → Option (List Char)
  | c :: tl => if c = '<' then tailOk tl else none
  | [] => none

/-- Backtracking search for the optional name part: the lazy first capture
(accumulated reversed in `pre`) grows one non-line-terminator character at a
time; at each size the whitespace run is skipped and an opening bracket with a
valid tail is required. -/
def scanA (pre : List Char) : List Char → Option (List Char × List Char)
  | [] => none
  | c :: cs =>
    match checkLt ((c :: cs).dropWhile jsIsWhitespace) with
    | some body => some (pre.reverse, body)
    | none => if isLineTerm c then none else scanA (c :: pre) cs

/-- Full model of the regex match: the branch with the optional name group is
tried first (it needs at least one character, which the dot must accept), and
only if every size of the lazy capture fails is the group dropped and an
opening bracket required at the very start. -/
def matchAngle (s : List Char) : Option (Option (List Char) × List Char) :=
  match s with
  | [] => none
  | c :: cs =>
    if isLineTerm c then
      match checkLt s with
      | some body => some (none, body)
      | none => none
    else
      match scanA [c] cs with
      | some (n, body) => some (some n, body)
      | none =>
        match checkLt s with
        | some body => some (none, body)
        | none => none

/-- Participant record: optional display name plus address
(NylasEmailParticipant in types.ts). -/
structure NylasEmailParticipant where
  name : Option String := none
  email : String
deriving DecidableEq, Repr

/-- Parse an email string into name and email parts
(parseEmailAddress in transformers.ts).  Handles a bare address,
a name followed by a bracketed address, and a bracketed address alone.
The name field is set only when the captured name is truthy after trimming. -/
def parseEmailAddress (input : String) : NylasEmailParticipant :=
  let trimmed := jsTrim input.data
  match matchAngle trimmed with
  | some (n, e) =>
    let name := (n.map jsTrim).getD []
    if name.isEmpty then { email := (jsTrim e).asString }
    else { name := some name.asString, email := (jsTrim e).asString }
  | none => { email := trimmed.asString }

/-- The public recipient fields hold either a single string or an array of
strings. -/
inductive StrOrList where
  | str (s : String)
  | list (l : List String)
deriving DecidableEq, Repr

/-- JavaScript truthiness of an optional string-or-array value: absent and the
empty string are falsy; every array, including the empty one, is truthy. -/
def truthyStrOrList : Option StrOrList → Bool
  | none => false
  | some (.str s) => !(s == "")
  | some (.list _) => true

/-- Convert string or string array to a participant array
(toParticipants in transformers.ts); a falsy input yields no array at all. -/
def toParticipants (input : Option StrOrList) : Option (List NylasEmailParticipant) :=
  if !truthyStrOrList input then none
  else
    match input with
    | some (.str s) => some [parseEmailAddress s]
    | some (.list l) => some (l.map parseEmailAddress)
    | none => none

/-- Format a participant back to a display string
(formatParticipant in transformers.ts); the name is used only when truthy. -/
def formatParticipant (participant : NylasEmailParticipant) : String :=
  match participant.name with
  | some n => if n == "" then participant.email else n ++ " <" ++ participant.email ++ ">"
  | none => participant.email

/-- Project a participant array to the list of bare addresses
(participantsToEmails in transformers.ts); an absent array yields the empty
list. -/
def participantsToEmails (participants : Option (List NylasEmailParticipant)) : List String :=
  match participants with
  | none => []
  | some ps => ps.map (fun p => p.email)

/-- Base64 alphabet lookup. -/
def base64Char (n : Nat) : Char :=
  if n < 26 then Char.ofNat (65 + n)
  else if n < 52 then Char.ofNat (97 + (n - 26))
  else if n < 62 then Char.ofNat (48 + (n - 52))
  else if n = 62 then '+'
  else '/'

/-- Standard base64 rendering of a byte list, with padding; models
Buffer.prototype.toString with the base64 encoding. -/
def base64Encode : List Nat → String
  | [] => ""
  | [a] =>
    let a := a % 256
    String.mk [base64Char (a / 4), base64Char (a % 4 * 16), '=', '=']
  | [a, b] =>
    let a := a % 256
    let b := b % 256
    String.mk [base64Char (a / 4), base64Char (a % 4 * 16 + b / 16), base64Char (b % 16 * 4), '=']
  | a :: b :: c :: rest =>
    let a := a % 256
    let b := b % 256
    let c := c % 256
    String.mk [base64Char (a / 4), base64Char (a % 4 * 16 + b / 16),
      base64Char (b % 16 * 4 + c / 64), base64Char (c % 64)] ++ base64Encode rest

/-- Days since the Unix epoch of a proleptic-Gregorian civil date. -/
def daysFromCivil (y m d : Int) : Int :=
  let yy := y - (if m ≤ 2 then 1 else 0)
  let era := Int.fdiv yy 400
  let yoe := yy - era * 400
  let mm := m + (if 2 < m then -3 else 9)
  let doy := (153 * mm + 2) / 5 + d - 1
  let doe := yoe * 365 + yoe / 4 - yoe / 100 + doy
  era * 146097 + doe - 719468

/-- Civil date of a day count since the Unix epoch (inverse of daysFromCivil). -/
def civilFromDays (days : Int) : Int × Int × Int :=
  let z := days + 719468
  let era := Int.fdiv z 146097
  let doe := z - era * 146097
  let yoe := (doe - doe / 1460 + doe / 36524 - doe / 146096) / 365
  let y := yoe + era * 400
  let doy := doe - (365 * yoe + yoe / 4 - yoe / 100)
  let mp := (5 * doy + 2) / 153
  let d := doy - (153 * mp + 2) / 5 + 1
  let m := mp + (if mp < 10 then 3 else -9)
  (y + (if m ≤ 2 then 1 else 0), m, d)

/-- Render a nonnegative integer left-padded with zeros to the given width. -/
def padNum (width : Nat) (n : Int) : String :=
  let s := toString n.toNat
  String.mk (List.replicate (width - s.length) '0') ++ s

/-- Model of Date.prototype.toISOString for a millisecond epoch timestamp:
the UTC calendar fields rendered with millisecond precision, four-digit years
inside 0..9999 and a sign plus six digits outside. -/
def jsToISOString (ms : Int) : String :=
  let days := Int.fdiv ms 86400000
  let msOfDay := ms - days * 86400000
  let hh := msOfDay / 3600000
  let mi := msOfDay % 3600000 / 60000
  let ss := msOfDay % 60000 / 1000
  let mss := msOfDay % 1000
  match civilFromDays days with
  | (y, m, d) =>
    let year :=
      if 0 ≤ y ∧ y ≤ 9999 then padNum 4 y
      else if y < 0 then "-" ++ padNum 6 (-y)
      else "+" ++ padNum 6 y
    year ++ "-" ++ padNum 2 m ++ "-" ++ padNum 2 d ++ "T" ++
      padNum 2 hh ++ ":" ++ padNum 2 mi ++ ":" ++ padNum 2 ss ++ "." ++ padNum 3 mss ++ "Z"

/-- Read exactly k digits, most significant first, extending the accumulator. -/
def takeDigits : Nat → List Char → Nat → Option (Nat × List Char)
  | 0, l, acc => some (acc, l)
  | Nat.succ k, c :: cs, acc =>
    if c.isDigit then takeDigits k cs (acc * 10 + (c.toNat - 48)) else none
  | Nat.succ _, [], _ => none

/-- Gregorian leap-year test. -/
def isLeapYear (y : Nat) : Bool :=
  (y % 4 == 0 && y % 100 != 0) || y % 400 == 0

/-- Number of days in a month. -/
def daysInMonth (y m : Nat) : Nat :=
  if m = 2 then (if isLeapYear y then 29 else 28)
  else if m = 4 ∨ m = 6 ∨ m = 9 ∨ m = 11 then 30 else 31

/-- Parse the time-of-day part HH:mm with optional seconds and milliseconds. -/
def parseTimePart (l : List Char) : Option (Nat × Nat × Nat × Nat × List Char) := do
  let (hh, l1) ← takeDigits 2 l 0
  match l1 with
  | ':' :: l2 => do
    let (mi, l3) ← takeDigits 2 l2 0
    match l3 with
    | ':' :: l4 => do
      let (ss, l5) ← takeDigits 2 l4 0
      match l5 with
      | '.' :: l6 => do
        let (ms, l7) ← takeDigits 3 l6 0
        pure (hh, mi, ss, ms, l7)
      | _ => pure (hh, mi, ss, 0, l5)
    | _ => pure (hh, mi, 0, 0, l3)
  | _ => none

/-- Parse the trailing UTC designator or numeric offset; returns the offset in
minutes when one is present.  The whole remaining input must be consumed. -/
def parseZone (l : List Char) : Option (Option Int) :=
  match l with
  | [] => some none
  | ['Z'] => some (some 0)
  | c :: rest =>
    if c = '+' ∨ c = '-' then do
      let (hh, l2) ← takeDigits 2 rest 0
      match l2 with
      | ':' :: l3 => do
        let (mi, l4) ← takeDigits 2 l3 0
        if l4.isEmpty ∧ hh ≤ 23 ∧ mi ≤ 59 then
          some (some ((if c = '-' then -1 else 1) * ((hh : Int) * 60 + mi)))
        else none
      | _ => none
    else none

/-- Model of JavaScript date-string parsing, new Date(s).getTime(), for the
ISO-8601 date-time formats the ECMAScript specification guarantees; every
other input is treated as an invalid date (none, standing for NaN).  A
date-time carrying no UTC designator or offset is interpreted in local time;
the model assumes a UTC environment. -/
def jsDateParseMillis (s : String) : Option Int := do
  let (y, l1) ← takeDigits 4 s.data 0
  let (m, d, l2) ←
    match l1 with
    | '-' :: r => do
      let (m, r2) ← takeDigits 2 r 0
      match r2 with
      | '-' :: r3 => do
        let (d, r4) ← takeDigits 2 r3 0
        pure (m, d, r4)
      | _ => pure (m, 1, r2)
    | _ => pure (1, 1, l1)
  if m < 1 ∨ 12 < m then none
  else if d < 1 ∨ daysInMonth y m < d then none
  else
    match l2 with
    | [] => pure (daysFromCivil y m d * 86400000)
    | 'T' :: r => do
      let (hh, mi, ss, ms, r2) ← parseTimePart r
      let off ← parseZone r2
      if 24 < hh ∨ 59 < mi ∨ 59 < ss then none
      else if hh = 24 ∧ (mi ≠ 0 ∨ ss ≠ 0 ∨ ms ≠ 0) then none
      else
        let base := daysFromCivil y m d * 86400000 +
          (hh : Int) * 3600000 + (mi : Int) * 60000 + (ss : Int) * 1000 + (ms : Int)
        match off with
        | some o => pure (base - o * 60000)
        | none => pure base
    | _ => none

/-- Public attachment content: an already-base64 string or raw bytes
(a Buffer). -/
inductive AttachmentContent where
  | str (s : String)
  | buffer (bytes : List Nat)
deriving DecidableEq, Repr

/-- Public attachment record (Attachment in types.ts). -/
structure Attachment where
  filename : String
  content : Option AttachmentContent := none
  path : Option String := none
  contentType : Option String := none
  contentId : Option String := none
deriving DecidableEq, Repr

/-- Public tag record (Tag in types.ts). -/
structure Tag where
  name : String
  value : String
deriving DecidableEq, Repr

/-- Public send request (SendEmailRequest in types.ts). -/
structure SendEmailRequest where
  «from» : String
  «to» : StrOrList
  subject : String
  text : Option String := none
  html : Option String := none
  replyTo : Option StrOrList := none
  cc : Option StrOrList := none
  bcc : Option StrOrList := none
  headers : Option (List (String × String)) := none
  attachments : Option (List Attachment) := none
  tags : Option (List Tag) := none
  scheduledAt : Option String := none
deriving DecidableEq, Repr

/-- Wire attachment (NylasAttachment in types.ts). -/
structure NylasAttachment where
  filename : String
  content : String
  content_type : String
  content_id : Option String := none
deriving DecidableEq, Repr

/-- Grant-based wire send request (NylasSendRequest in types.ts).  The wire
type declares `to` as required, but the source populates it through a
non-null assertion on toParticipants, whose runtime value is absent for a
falsy input; the field is therefore modelled as optional to reflect the
runtime value.  Optional wire fields the transformer never sets
(reply_to_message_id, tracking_options) are omitted. -/
structure NylasSendRequest where
  subject : String
  body : String
  «from» : Option (List NylasEmailParticipant) := none
  «to» : Option (List NylasEmailParticipant)
  cc : Option (List NylasEmailParticipant) := none
  bcc : Option (List NylasEmailParticipant) := none
  reply_to : Option (List NylasEmailParticipant) := none
  attachments : Option (List NylasAttachment) := none
  send_at : Option Int := none
deriving DecidableEq, Repr

/-- JavaScript truthiness of an optional string: absent and empty are falsy. -/
def truthyOptStr : Option String → Bool
  | none => false
  | some s => !(s == "")

/-- The body expression of both send transformers:
request.html short-circuit-or request.text short-circuit-or the empty string,
with JavaScript truthiness, so an empty-string field falls through. -/
def jsBodyOr (html text : Option String) : String :=
  if truthyOptStr html then html.getD ""
  else if truthyOptStr text then text.getD ""
  else ""

/-- Presence-with-positive-length test used on optional arrays and maps. -/
def someNonempty {α : Type} : Option (List α) → Bool
  | some l => !l.isEmpty
  | none => false

/-- The presence test with positive length applied to the optional recipient
lists: the wire field is set only when the converted list exists and is
nonempty, mirroring the conditional assignment in the source. -/
def keepNonempty (ps : Option (List NylasEmailParticipant)) :
    Option (List NylasEmailParticipant) :=
  match ps with
  | some l => if l.isEmpty then none else some l
  | none => none

/-- Map a public attachment to the wire attachment (the attachment mapping
inside transformSendRequest): string content passes through, buffer content
is base64-rendered, the content type defaults, and the content id is kept
only when truthy. -/
def toNylasAttachment (att : Attachment) : NylasAttachment :=
  { filename := att.filename,
    content :=
      match att.content with
      | some (.str s) => s
      | some (.buffer bs) => base64Encode bs
      | none => "",
    content_type :=
      if truthyOptStr att.contentType then att.contentType.getD ""
      else "application/octet-stream",
    content_id := if truthyOptStr att.contentId then att.contentId else none }

/-- Transform a public send request to the grant-based wire format
(transformSendRequest in transformers.ts).  The first component is the wire
request; the second collects the advisory warnings the source writes to the
console. -/
def transformSendRequest (request : SendEmailRequest) :
    NylasSendRequest × List String :=
  let warnings :=
    (if someNonempty request.headers then
      ["nylas-resend: Custom headers are not supported by Nylas JSON API. Headers will be ignored. Use raw MIME format for custom headers."]
    else []) ++
    (if someNonempty request.tags then
      ["nylas-resend: Tags are not supported by Nylas API. Tags will be ignored."]
    else [])
  let nylasRequest : NylasSendRequest :=
    { subject := request.subject,
      body := jsBodyOr request.html request.text,
      «to» := toParticipants (some request.«to»),
      «from» :=
        if !(request.«from» == "") then some [parseEmailAddress request.«from»]
        else none,
      cc := keepNonempty (toParticipants request.cc),
      bcc := keepNonempty (toParticipants request.bcc),
      reply_to := keepNonempty (toParticipants request.replyTo),
      attachments :=
        match request.attachments with
        | some atts => if atts.isEmpty then none else some (atts.map toNylasAttachment)
        | none => none,
      send_at :=
        match request.scheduledAt with
        | some s =>
          if s == "" then none
          else
            match jsDateParseMillis s with
            | some ts => some (Int.fdiv ts 1000)
            | none => none
        | none => none }
  (nylasRequest, warnings)

/-- Domain-based wire send request (NylasDomainSendRequest in types.ts).
As for the grant variant, `to` reflects the runtime value of the non-null
assertion.  The optional template field, never set by the transformer, is
omitted.  The wire type declares subject, body and is_plaintext optional,
but the transformer always sets them. -/
structure NylasDomainSendRequest where
  «from» : NylasEmailParticipant
  «to» : Option (List NylasEmailParticipant)
  cc : Option (List NylasEmailParticipant) := none
  bcc : Option (List NylasEmailParticipant) := none
  subject : String
  body : String
  is_plaintext : Bool
deriving DecidableEq, Repr

/-- Transform a public send request to the domain-based wire format
(transformDomainSendRequest in transformers.ts), with the advisory warnings
as second component.  The domain wire format has no attachments, scheduling
or reply-to; those inputs only produce warnings. -/
def transformDomainSendRequest (request : SendEmailRequest) :
    NylasDomainSendRequest × List String :=
  let warnings :=
    (if someNonempty request.headers then
      ["nylas-resend: Custom headers are not supported by Nylas domain send API. Headers will be ignored."]
    else []) ++
    (if someNonempty request.tags then
      ["nylas-resend: Tags are not supported by Nylas API. Tags will be ignored."]
    else []) ++
    (if someNonempty request.attachments then
      ["nylas-resend: Attachments are not supported by Nylas domain send API. Attachments will be ignored."]
    else []) ++
    (if truthyOptStr request.scheduledAt then
      ["nylas-resend: Scheduled send is not supported by Nylas domain send API. scheduledAt will be ignored."]
    else []) ++
    (if truthyStrOrList request.replyTo then
      ["nylas-resend: Reply-to is not supported by Nylas domain send API. replyTo will be ignored."]
    else [])
  let nylasRequest : NylasDomainSendRequest :=
    { «from» := parseEmailAddress request.«from»,
      «to» := toParticipants (some request.«to»),
      subject := request.subject,
      body := jsBodyOr request.html request.text,
      is_plaintext := !truthyOptStr request.html && truthyOptStr request.text,
      cc := keepNonempty (toParticipants request.cc),
      bcc := keepNonempty (toParticipants request.bcc) }
  (nylasRequest, warnings)

/-- Provider message attachment metadata (NylasMessageAttachment in types.ts). -/
structure NylasMessageAttachment where
  id : String
  grant_id : String
  filename : String
  content_type : String
  size : Nat
  content_id : Option String := none
  is_inline : Option Bool := none
deriving DecidableEq, Repr

/-- Provider message record (NylasMessage in types.ts); optional descriptive
fields not read by any transformer (thread_id, snippet, starred, unread,
folders) are omitted. -/
structure NylasMessage where
  id : String
  grant_id : String := ""
  «from» : List NylasEmailParticipant
  «to» : List NylasEmailParticipant
  cc : Option (List NylasEmailParticipant) := none
  bcc : Option (List NylasEmailParticipant) := none
  reply_to : Option (List NylasEmailParticipant) := none
  subject : String
  body : String
  date : Int
  attachments : Option (List NylasMessageAttachment) := none
deriving DecidableEq, Repr

/-- Public email record (GetEmailResponse in types.ts); the transformer always
populates the recipient lists and both body fields, and never sets
scheduledAt. -/
structure GetEmailResponse where
  id : String
  object : String
  «from» : String
  «to» : List String
  cc : List String
  bcc : List String
  replyTo : List String
  subject : String
  text : String
  html : String
  createdAt : String
  lastEvent : String
deriving DecidableEq, Repr

/-- Transform a provider message to the public email record
(transformMessageToEmail in transformers.ts). -/
def transformMessageToEmail (message : NylasMessage) : GetEmailResponse :=
  { id := message.id,
    object := "email",
    «from» :=
      match message.«from» with
      | p :: _ => formatParticipant p
      | [] => "",
    «to» := participantsToEmails (some message.«to»),
    cc := participantsToEmails message.cc,
    bcc := participantsToEmails message.bcc,
    replyTo := participantsToEmails message.reply_to,
    subject := message.subject,
    text := message.body,
    html := message.body,
    createdAt := jsToISOString (message.date * 1000),
    lastEvent := "email.sent" }

/-- Provider acknowledgement of a grant-based send (NylasSendResponse). -/
structure NylasSendResponse where
  request_id : String
  data : NylasMessage
deriving DecidableEq, Repr

/-- Public send acknowledgement (SendEmailResponse in types.ts). -/
structure SendEmailResponse where
  id : String
deriving DecidableEq, Repr

/-- Transform the grant-based send acknowledgement
(transformSendResponse in transformers.ts). -/
def transformSendResponse (response : NylasSendResponse) : SendEmailResponse :=
  { id := response.data.id }

/-- Payload of the domain-based send acknowledgement. -/
structure NylasDomainSendResponseData where
  id : String
deriving DecidableEq, Repr

/-- Provider acknowledgement of a domain-based send (NylasDomainSendResponse). -/
structure NylasDomainSendResponse where
  request_id : String
  data : NylasDomainSendResponseData
deriving DecidableEq, Repr

/-- Transform the domain-based send acknowledgement
(transformDomainSendResponse in transformers.ts). -/
def transformDomainSendResponse (response : NylasDomainSendResponse) :
    SendEmailResponse :=
  { id := response.data.id }

/-- Uniform error shape returned by the facade (ResendError in types.ts). -/
structure ResendError where
  message : String
  name : String
  statusCode : Option Int := none
deriving DecidableEq, Repr

/-- Uniform facade result (ApiResponse in types.ts). -/
structure ApiResponse (T : Type) where
  data : Option T
  error : Option ResendError
deriving DecidableEq, Repr

/-- The values the transport may throw: the typed request error of client.ts,
a generic Error, or any other thrown value as rendered by String. -/
inductive ThrownValue where
  | nylasRequestError (message : String) (statusCode : Int)
      (errorType : Option String) (requestId : Option String)
  | jsError (name : String) (message : String)
  | other (rendered : String)
deriving DecidableEq, Repr

/-- Create a ResendError from a thrown value (toResendError in emails.ts);
the error-type tag is used as the name only when truthy. -/
def toResendError : ThrownValue → ResendError
  | .nylasRequestError m sc et _ =>
    { message := m,
      name := if truthyOptStr et then et.getD "" else "api_error",
      statusCode := some sc }
  | .jsError n m => { message := m, name := n }
  | .other s => { message := s, name := "unknown_error" }

/-- Provider response wrapping a single message (NylasMessageResponse). -/
structure NylasMessageResponse where
  request_id : String
  data : NylasMessage
deriving DecidableEq, Repr

/-- Observable transport invocations made by the facade. -/
inductive TransportCall where
  | sendMessage (req : NylasSendRequest)
  | sendDomainMessage (req : NylasDomainSendRequest)
  | getMessage (messageId : String)
deriving DecidableEq, Repr

/-- The transport collaborator (NylasClient) as the facade sees it: the domain
flag and the operations, each returning a result or a thrown value. -/
structure ClientModel where
  hasDomain : Bool
  sendMessage : NylasSendRequest → Except ThrownValue NylasSendResponse
  sendDomainMessage : NylasDomainSendRequest → Except ThrownValue NylasDomainSendResponse
  getMessage : String → Except ThrownValue NylasMessageResponse

/-- Validation-failure result with the fixed error name used by the facade. -/
def validationError (T : Type) (msg : String) : ApiResponse T :=
  { data := none, error := some { message := msg, name := "validation_error" } }

/-- The send operation of the emails facade (Emails.send in emails.ts):
field-presence validation, capability dispatch on the domain flag, transform,
transport call, uniform result.  The second component records the transport
calls made during the operation. -/
def Emails.send (client : ClientModel) (request : SendEmailRequest) :
    ApiResponse SendEmailResponse × List TransportCall :=
  if request.«from» = "" then
    (validationError _ "Missing required field: from", [])
  else if request.«to» = StrOrList.str "" ∨ request.«to» = StrOrList.list [] then
    (validationError _ "Missing required field: to", [])
  else if request.subject = "" then
    (validationError _ "Missing required field: subject", [])
  else if client.hasDomain then
    let nylasRequest := (transformDomainSendRequest request).1
    match client.sendDomainMessage nylasRequest with
    | .ok response =>
      ({ data := some (transformDomainSendResponse response), error := none },
        [.sendDomainMessage nylasRequest])
    | .error err =>
      ({ data := none, error := some (toResendError err) },
        [.sendDomainMessage nylasRequest])
  else
    let nylasRequest := (transformSendRequest request).1
    match client.sendMessage nylasRequest with
    | .ok response =>
      ({ data := some (transformSendResponse response), error := none },
        [.sendMessage nylasRequest])
    | .error err =>
      ({ data := none, error := some (toResendError err) },
        [.sendMessage nylasRequest])

/-- The get operation of the emails facade (Emails.get in emails.ts). -/
def Emails.get (client : ClientModel) (emailId : String) :
    ApiResponse GetEmailResponse × List TransportCall :=
  if emailId = "" then
    (validationError _ "Missing required parameter: emailId", [])
  else
    match client.getMessage emailId with
    | .ok response =>
      ({ data := some (transformMessageToEmail response.data), error := none },
        [.getMessage emailId])
    | .error err =>
      ({ data := none, error := some (toResendError err) }, [.getMessage emailId])

/-- Untyped JavaScript values, as delivered by JSON deserialization of a
webhook body, plus undefined. -/
inductive JSValue where
  | undefined
  | null
  | bool (b : Bool)
  | num (n : Int)
  | str (s : String)
  | arr (elems : List JSValue)
  | obj (fields : List (String × JSValue))

/-- JavaScript truthiness of an untyped value. -/
def jsTruthy : JSValue → Bool
  | .undefined => false
  | .null => false
  | .bool b => b
  | .num n => !(n == 0)
  | .str s => !(s == "")
  | .arr _ => true
  | .obj _ => true

/-- Values on which property access does not throw. -/
def notNullish : JSValue → Bool
  | .undefined => false
  | .null => false
  | _ => true

/-- First binding of a key in an object literal field list. -/
def lookupField : List (String × JSValue) → String → Option JSValue
  | [], _ => none
  | (k, v) :: rest, key => if k == key then some v else lookupField rest key

/-- Property read with a defaulting result: on an object the bound value or
undefined; on every other non-nullish value undefined, since the primitives
and arrays involved here own none of the property names read. -/
def jsMemberD (v : JSValue) (key : String) : JSValue :=
  match v with
  | .obj fields => (lookupField fields key).getD .undefined
  | _ => .undefined

/-- Property read as an expression: throws on undefined and null. -/
def jsMember (v : JSValue) (key : String) : Except String JSValue :=
  match v with
  | .undefined => .error "TypeError: cannot read properties of undefined"
  | .null => .error "TypeError: cannot read properties of null"
  | _ => .ok (jsMemberD v key)

/-- Indexing with the literal 0: throws on undefined and null; a string
yields its first code unit as a one-character string when nonempty; an array
yields its first element; other primitives own no element 0. -/
def jsIndex0 : JSValue → Except String JSValue
  | .undefined => .error "TypeError: cannot read properties of undefined"
  | .null => .error "TypeError: cannot read properties of null"
  | .str s => .ok (if s == "" then .undefined else .str (String.mk [s.data.headD ' ']))
  | .arr xs => .ok (xs.headD .undefined)
  | .obj fields => .ok ((lookupField fields "0").getD .undefined)
  | _ => .ok .undefined

mutual

/-- ECMAScript ToString of the values above, as invoked by template
literals. -/
def jsToString : JSValue → String
  | .undefined => "undefined"
  | .null => "null"
  | .bool b => if b then "true" else "false"
  | .num n => toString n
  | .str s => s
  | .arr xs => String.intercalate "," (jsToStringElems xs)
  | .obj _ => "[object Object]"

/-- Array elements under the array ToString: null and undefined render as
empty strings. -/
def jsToStringElems : List JSValue → List String
  | [] => []
  | .undefined :: rest => "" :: jsToStringElems rest
  | .null :: rest => "" :: jsToStringElems rest
  | v :: rest => jsToString v :: jsToStringElems rest

end

/-- The participant formatter as invoked from the webhook transformer on an
untyped participant value: a template string when the name property is
truthy, otherwise the raw email property value. -/
def formatParticipantJS (participant : JSValue) : Except String JSValue := do
  let name ← jsMember participant "name"
  if jsTruthy name then
    let email ← jsMember participant "email"
    pure (JSValue.str (jsToString name ++ " <" ++ jsToString email ++ ">"))
  else
    jsMember participant "email"

/-- The address projection as invoked from the webhook transformer on an
untyped field: a falsy value yields the empty array; otherwise the value must
be an array (mapping over anything else throws) and each element has its
email property read, which throws on null or undefined elements. -/
def participantsToEmailsJS (v : JSValue) : Except String JSValue :=
  if !jsTruthy v then .ok (.arr [])
  else
    match v with
    | .arr xs => do
      let emails ← xs.mapM (fun p => jsMember p "email")
      pure (JSValue.arr emails)
    | _ => .error "TypeError: participants.map is not a function"

/-- The element function of the attachment mapping: filename, content type
and size of one attachment read into the public metadata shape. -/
def attachmentMetaJS (att : JSValue) : Except String JSValue := do
  let filename ← jsMember att "filename"
  let contentType ← jsMember att "content_type"
  let size ← jsMember att "size"
  pure (JSValue.obj
    [("filename", filename), ("contentType", contentType), ("size", size)])

/-- The optional-chained attachment mapping of the webhook transformer: null
and undefined short-circuit to undefined; any other non-array throws; each
attachment element is projected to its public metadata shape. -/
def mapAttachmentsJS (v : JSValue) : Except String JSValue :=
  match v with
  | .undefined => .ok .undefined
  | .null => .ok .undefined
  | .arr xs => do
    let atts ← xs.mapM attachmentMetaJS
    pure (JSValue.arr atts)
  | _ => .error "TypeError: attachments.map is not a function"

/-- The typeof-object test with the null exclusion, as used by the shape
guard; arrays also pass it. -/
def isObjectNonNull : JSValue → Bool
  | .arr _ => true
  | .obj _ => true
  | _ => false

/-- Shape guard (isNylasMessageWebhook in transformers.ts): a non-null
object value with a string type field and an object data field whose object
field is itself a non-null object.  Nothing deeper is checked. -/
def isNylasMessageWebhook (payload : JSValue) : Bool :=
  isObjectNonNull payload &&
  (match jsMemberD payload "type" with
   | .str _ => true
   | _ => false) &&
  isObjectNonNull (jsMemberD payload "data") &&
  isObjectNonNull (jsMemberD (jsMemberD payload "data") "object")

/-- Event-type guard (isMessageCreatedWebhook in transformers.ts): the shape
guard plus strict string equality of the type field with the
message-created discriminator. -/
def isMessageCreatedWebhook (payload : JSValue) : Bool :=
  isNylasMessageWebhook payload &&
  (match jsMemberD payload "type" with
   | .str s => s == "message.created"
   | _ => false)

/-- Transform a webhook payload to the public inbound event
(transformWebhookToInboundEvent in transformers.ts), under JavaScript
evaluation semantics: every property access and array operation may throw,
modelled by the error outcome. -/
def transformWebhookToInboundEvent (payload : JSValue) : Except String JSValue := do
  let dataField ← jsMember payload "data"
  let message ← jsMember dataField "object"
  let timeField ← jsMember payload "time"
  let idField ← jsMember message "id"
  let fromField ← jsMember message "from"
  let from0 ← jsIndex0 fromField
  let fromRendered ←
    if jsTruthy from0 then formatParticipantJS from0 else pure (JSValue.str "")
  let toField ← jsMember message "to"
  let toEmails ← participantsToEmailsJS toField
  let ccField ← jsMember message "cc"
  let ccEmails ← participantsToEmailsJS ccField
  let bccField ← jsMember message "bcc"
  let bccEmails ← participantsToEmailsJS bccField
  let rtField ← jsMember message "reply_to"
  let rtEmails ← participantsToEmailsJS rtField
  let subjectField ← jsMember message "subject"
  let bodyField ← jsMember message "body"
  let attField ← jsMember message "attachments"
  let atts ← mapAttachmentsJS attField
  pure (JSValue.obj
    [("type", JSValue.str "email.received"),
     ("createdAt", timeField),
     ("data", JSValue.obj
       [("id", idField),
        ("from", fromRendered),
        ("to", toEmails),
        ("cc", ccEmails),
        ("bcc", bccEmails),
        ("replyTo", rtEmails),
        ("subject", subjectField),
        ("text", bodyField),
        ("html", bodyField),
        ("createdAt", timeField),
        ("attachments", atts)])])

/-- The inbound webhook chain (handleInboundWebhook in webhooks.ts): both
guards, then the transform.  The ok-none outcome is the null return; the
error outcome is a thrown fault. -/
def handleInboundWebhook (payload : JSValue) : Except String (Option JSValue) :=
  if isMessageCreatedWebhook payload then
    (transformWebhookToInboundEvent payload).map some
  else
    .ok none

/-- Participant-list fields on which the address projection cannot throw:
falsy, or an array free of null and undefined elements. -/
def safeParticipantField (v : JSValue) : Bool :=
  if !jsTruthy v then true
  else
    match v with
    | .arr xs => xs.all notNullish
    | _ => false

/-- Attachment fields on which the optional-chained mapping cannot throw. -/
def safeAttachmentsField (v : JSValue) : Bool :=
  match v with
  | .undefined => true
  | .null => true
  | .arr xs => xs.all notNullish
  | _ => false

/-- Nested message objects on which the webhook transform cannot throw: the
from field is not nullish and the recipient-list and attachments fields are
safe. -/
def messageWellFormed (message : JSValue) : Bool :=
  notNullish (jsMemberD message "from") &&
  safeParticipantField (jsMemberD message "to") &&
  safeParticipantField (jsMemberD message "cc") &&
  safeParticipantField (jsMemberD message "bcc") &&
  safeParticipantField (jsMemberD message "reply_to") &&
  safeAttachmentsField (jsMemberD message "attachments")

/-- Stub transport used by concrete witnesses; every operation reports a
generic failure, so any observed transport influence would be visible. -/
def clientStub : ClientModel :=
  { hasDomain := false,
    sendMessage := fun _ => .error (.other "unreachable"),
    sendDomainMessage := fun _ => .error (.other "unreachable"),
    getMessage := fun _ => .error (.other "unreachable") }

/-- Request carrying an empty html body alongside nonempty text. -/
def emptyHtmlReq : SendEmailRequest :=
  { «from» := "a@x.com", «to» := .str "b@x.com", subject := "S",
    html := some "", text := some "T" }

/-- Base request for the domain-transform drop witness. -/
def domainDropBase : SendEmailRequest :=
  { «from» := "a@x.com", «to» := .str "b@x.com", subject := "S", text := some "T" }

/-- Request whose from field is missing. -/
def noFromReq : SendEmailRequest :=
  { «from» := "", «to» := .str "b@x.com", subject := "S", text := some "T" }

/-- Request whose cc is an explicit empty list. -/
def emptyCcReq : SendEmailRequest :=
  { «from» := "a@x.com", «to» := .str "b@x.com", subject := "S",
    cc := some (.list []) }

/-- Payload passing both webhook guards whose nested message lacks a from
field. -/
def noFromPayload : JSValue :=
  .obj [("type", .str "message.created"), ("data", .obj [("object", .obj [])])]

/-- Well-formed message-created payload. -/
def goodPayload : JSValue :=
  .obj [("type", .str "message.created"), ("time", .str "2024-01-15T10:30:00Z"),
    ("data", .obj [("object", .obj
      [("id", .str "msg_789"),
       ("from", .arr [.obj [("email", .str "john@example.com")]]),
       ("to", .arr [.obj [("email", .str "inbox@app.nylas.email")]]),
       ("subject", .str "Test"), ("body", .str "Hello")])])]

/-- Account-lifecycle payload with a well-formed nested object. -/
def grantPayload : JSValue :=
  .obj [("type", .str "grant.updated"), ("time", .str "2024-01-15T10:30:00Z"),
    ("data", .obj [("object", .obj
      [("id", .str "msg_789"),
       ("from", .arr [.obj [("email", .str "john@example.com")]]),
       ("to", .arr [.obj [("email", .str "inbox@app.nylas.email")]]),
       ("subject", .str "Test"), ("body", .str "Hello")])])]

/-- Request with both an html body and a text body, html nonempty. -/
def htmlAndTextReq : SendEmailRequest :=
  { «from» := "a@x.com", «to» := .str "b@x.com", subject := "S",
    html := some "<p>H</p>", text := some "T" }

/-- Request with neither body field. -/
def noBodyReq : SendEmailRequest :=
  { «from» := "a@x.com", «to» := .str "b@x.com", subject := "S" }

/-- Domain-drop request: the base request plus all three unsupported inputs. -/
def dropAtts : Option (List Attachment) := some [{ filename := "f.pdf" }]

def dropSched : Option String := some "2024-01-15"

def dropReplyTo : Option StrOrList := some (.str "c@x.com")

def domainDropReq : SendEmailRequest :=
  { domainDropBase with
    attachments := dropAtts,
    scheduledAt := dropSched,
    replyTo := dropReplyTo }

/-- Participant whose nonempty name carries leading whitespace. -/
def spaceNameParticipant : NylasEmailParticipant :=
  { name := some " x", email := "e@x" }

/-- Ordinary named participant for the round-trip witness. -/
def roundtripParticipant : NylasEmailParticipant :=
  { name := some "John Doe", email := "john@example.com" }

/-- Sample provider message at the epoch second of the numeric claim. -/
def sampleMessage : NylasMessage :=
  { id := "msg_1", «from» := [], «to» := [], subject := "S", body := "B",
    date := 1700000000 }

/-! Helper lemmas shared by the claim theorems. -/

theorem bindOk {α β : Type} (a : α) (f : α → Except String β) :
    (Except.ok a : Except String α) >>= f = f a := rfl

theorem pureOk {α : Type} (a : α) : (pure a : Except String α) = Except.ok a := rfl

theorem keepNonempty_ne_none_iff (o : Option (List NylasEmailParticipant)) :
    keepNonempty o ≠ none ↔ ∃ ps, o = some ps ∧ ps ≠ [] := by
  cases o with
  | none => simp [keepNonempty]
  | some l => cases l <;> simp [keepNonempty]

theorem keepNonempty_ne_some_nil (o : Option (List NylasEmailParticipant)) :
    keepNonempty o ≠ some [] := by
  cases o with
  | none => simp [keepNonempty]
  | some l => cases l <;> simp [keepNonempty]

theorem truthyOptStr_eq_true_iff (o : Option String) :
    truthyOptStr o = true ↔ ∃ s, o = some s ∧ s ≠ "" := by
  cases o <;> simp [truthyOptStr]

theorem truthyOptStr_eq_false_iff (o : Option String) :
    truthyOptStr o = false ↔ o = none ∨ o = some "" := by
  cases o <;> simp [truthyOptStr]

theorem jsMember_of_notNullish (v : JSValue) (key : String)
    (h : notNullish v = true) : jsMember v key = Except.ok (jsMemberD v key) := by
  cases v <;> first | rfl | simp [notNullish] at h

theorem isObjectNonNull_notNullish (v : JSValue)
    (h : isObjectNonNull v = true) : notNullish v = true := by
  cases v <;> first | rfl | simp [isObjectNonNull] at h

theorem jsIndex0_of_notNullish (v : JSValue) (h : notNullish v = true) :
    ∃ w, jsIndex0 v = Except.ok w := by
  cases v <;> first | exact ⟨_, rfl⟩ | simp [notNullish] at h

theorem jsTruthy_notNullish (v : JSValue) (h : jsTruthy v = true) :
    notNullish v = true := by
  cases v <;> first | rfl | simp [jsTruthy] at h

theorem formatParticipantJS_ok (p : JSValue) (h : jsTruthy p = true) :
    ∃ s, formatParticipantJS p = Except.ok s := by
  have hnn : notNullish p = true := jsTruthy_notNullish p h
  unfold formatParticipantJS
  rw [jsMember_of_notNullish p "name" hnn]
  simp only [bindOk]
  cases hc : jsTruthy (jsMemberD p "name")
  · rw [if_neg (by simp)]
    exact ⟨_, jsMember_of_notNullish p "email" hnn⟩
  · rw [if_pos rfl, jsMember_of_notNullish p "email" hnn]
    simp only [bindOk]
    exact ⟨_, rfl⟩

theorem mapM_ok_of_all (f : JSValue → Except String JSValue)
    (hf : ∀ x, notNullish x = true → ∃ y, f x = Except.ok y)
    (xs : List JSValue) (h : xs.all notNullish = true) :
    ∃ ys, xs.mapM f = Except.ok ys := by
  induction xs with
  | nil => exact ⟨[], rfl⟩
  | cons x rest ih =>
    rw [List.all_cons, Bool.and_eq_true] at h
    obtain ⟨y, hy⟩ := hf x h.1
    obtain ⟨ys, hys⟩ := ih h.2
    refine ⟨y :: ys, ?_⟩
    rw [List.mapM_cons, hy, hys]
    rfl

theorem participantsToEmailsJS_ok (v : JSValue)
    (h : safeParticipantField v = true) :
    ∃ w, participantsToEmailsJS v = Except.ok w := by
  cases hv : jsTruthy v
  · exact ⟨.arr [], by unfold participantsToEmailsJS; rw [hv]; rfl⟩
  · cases v with
    | arr xs =>
      have hall : xs.all notNullish = true := by
        unfold safeParticipantField at h
        rw [hv] at h
        simpa using h
      obtain ⟨ys, hys⟩ := mapM_ok_of_all (fun p => jsMember p "email")
        (fun x hx => ⟨_, jsMember_of_notNullish x "email" hx⟩) xs hall
      refine ⟨.arr ys, ?_⟩
      have hdef : participantsToEmailsJS (JSValue.arr xs) =
          (xs.mapM (fun p => jsMember p "email") >>=
            fun emails => pure (JSValue.arr emails)) := rfl
      rw [hdef, hys]
      rfl
    | undefined => simp [jsTruthy] at hv
    | null => simp [jsTruthy] at hv
    | bool b => simp [safeParticipantField, hv] at h
    | num n => simp [safeParticipantField, hv] at h
    | str s => simp [safeParticipantField, hv] at h
    | obj fields => simp [safeParticipantField, hv] at h

theorem mapAttachmentsJS_ok (v : JSValue) (h : safeAttachmentsField v = true) :
    ∃ w, mapAttachmentsJS v = Except.ok w := by
  cases v with
  | undefined => exact ⟨.undefined, rfl⟩
  | null => exact ⟨.undefined, rfl⟩
  | arr xs =>
    have hall : xs.all notNullish = true := by
      unfold safeAttachmentsField at h
      simpa using h
    obtain ⟨ys, hys⟩ := mapM_ok_of_all attachmentMetaJS
      (fun x hx => ⟨_, by
        unfold attachmentMetaJS
        rw [jsMember_of_notNullish x "filename" hx]
        simp only [bindOk]
        rw [jsMember_of_notNullish x "content_type" hx]
        simp only [bindOk]
        rw [jsMember_of_notNullish x "size" hx]
        simp only [bindOk]
        rfl⟩) xs hall
    refine ⟨.arr ys, ?_⟩
    have hdef : mapAttachmentsJS (JSValue.arr xs) =
        (xs.mapM attachmentMetaJS >>= fun atts => pure (JSValue.arr atts)) := rfl
    rw [hdef, hys]
    rfl
  | bool b => simp [safeAttachmentsField] at h
  | num n => simp [safeAttachmentsField] at h
  | str s => simp [safeAttachmentsField] at h
  | obj fields => simp [safeAttachmentsField] at h

theorem nylasGuard_parts (payload : JSValue)
    (h : isNylasMessageWebhook payload = true) :
    isObjectNonNull payload = true ∧
    isObjectNonNull (jsMemberD payload "data") = true ∧
    isObjectNonNull (jsMemberD (jsMemberD payload "data") "object") = true := by
  unfold isNylasMessageWebhook at h
  simp only [Bool.and_eq_true, and_assoc] at h
  exact ⟨h.1, h.2.2.1, h.2.2.2⟩

theorem guard_type_eq (payload : JSValue)
    (h : isMessageCreatedWebhook payload = true) :
    jsMemberD payload "type" = JSValue.str "message.created" := by
  unfold isMessageCreatedWebhook at h
  rw [Bool.and_eq_true] at h
  obtain ⟨-, h2⟩ := h
  cases ht : jsMemberD payload "type" <;> rw [ht] at h2 <;> simp_all

/-! Claim theorems. -/

/-- C2 counterexample: with html supplied as the empty string and text
supplied nonempty, the grant transform body is the text value, not the html
value, contradicting the claim that body equals html whenever both are
supplied. -/
theorem C2_counterexample :
    emptyHtmlReq.html = some "" ∧ emptyHtmlReq.text = some "T" ∧
    (transformSendRequest emptyHtmlReq).1.body ≠ "" ∧
    (transformSendRequest emptyHtmlReq).1.body = "T" := by
  refine ⟨rfl, rfl, ?_, rfl⟩
  decide

/-- C2 amended: the grant transform body is the html value when html is
present and nonempty (truthy), else the text value when text is present and
nonempty, else the empty string; html is preferred over text only when
truthy. -/
theorem C2_body_amended :
    (∀ (request : SendEmailRequest) (h : String), request.html = some h → h ≠ "" →
      (transformSendRequest request).1.body = h) ∧
    (∀ (request : SendEmailRequest) (t : String),
      (request.html = none ∨ request.html = some "") → request.text = some t →
      t ≠ "" → (transformSendRequest request).1.body = t) ∧
    (∀ request : SendEmailRequest,
      (request.html = none ∨ request.html = some "") →
      (request.text = none ∨ request.text = some "") →
      (transformSendRequest request).1.body = "") := by
  refine ⟨?_, ?_, ?_⟩
  · intro request h hh hne
    have hb : (transformSendRequest request).1.body =
        jsBodyOr request.html request.text := rfl
    rw [hb, hh]
    simp [jsBodyOr, truthyOptStr, hne]
  · intro request t hh ht hne
    have hb : (transformSendRequest request).1.body =
        jsBodyOr request.html request.text := rfl
    rcases hh with hh | hh <;>
      rw [hb, hh, ht] <;> simp [jsBodyOr, truthyOptStr, hne]
  · intro request hh ht
    have hb : (transformSendRequest request).1.body =
        jsBodyOr request.html request.text := rfl
    rcases hh with hh | hh <;> rcases ht with ht | ht <;>
      rw [hb, hh, ht] <;> simp [jsBodyOr, truthyOptStr]

/-- C2 amended witness at concrete inputs for each hypothesis. -/
theorem C2_body_amended_witness :
    (transformSendRequest htmlAndTextReq).1.body = "<p>H</p>" ∧
    (transformSendRequest emptyHtmlReq).1.body = "T" ∧
    (transformSendRequest noBodyReq).1.body = "" :=
  ⟨C2_body_amended.1 htmlAndTextReq _ rfl (by decide),
   C2_body_amended.2.1 emptyHtmlReq "T" (Or.inr rfl) rfl (by decide),
   C2_body_amended.2.2 noBodyReq (Or.inl rfl) (Or.inl rfl)⟩

/-- C4 counterexample: with html supplied as the empty string and text
supplied nonempty, the domain transform sets is_plaintext true, although the
claim requires false whenever html is present. -/
theorem C4_counterexample :
    emptyHtmlReq.html = some "" ∧
    (transformDomainSendRequest emptyHtmlReq).1.is_plaintext = true :=
  ⟨rfl, rfl⟩

/-- C4 amended: is_plaintext is true exactly when html is absent or empty
(falsy) and text is present and nonempty (truthy). -/
theorem C4_is_plaintext_amended (request : SendEmailRequest) :
    (transformDomainSendRequest request).1.is_plaintext = true ↔
      ((request.html = none ∨ request.html = some "") ∧
        ∃ t, request.text = some t ∧ t ≠ "") := by
  have hp : (transformDomainSendRequest request).1.is_plaintext =
      (!truthyOptStr request.html && truthyOptStr request.text) := rfl
  rw [hp, Bool.and_eq_true, Bool.not_eq_true', truthyOptStr_eq_false_iff,
    truthyOptStr_eq_true_iff]

/-- C5: cc, bcc and reply_to appear in the grant wire request exactly when
the converted participant list exists and is nonempty; an absent input and an
explicit empty list both leave the key out, and the wire value is never an
empty array. -/
theorem C5_recipient_elision (request : SendEmailRequest) :
    ((transformSendRequest request).1.cc ≠ none ↔
      ∃ ps, toParticipants request.cc = some ps ∧ ps ≠ []) ∧
    ((transformSendRequest request).1.bcc ≠ none ↔
      ∃ ps, toParticipants request.bcc = some ps ∧ ps ≠ []) ∧
    ((transformSendRequest request).1.reply_to ≠ none ↔
      ∃ ps, toParticipants request.replyTo = some ps ∧ ps ≠ []) ∧
    (transformSendRequest request).1.cc ≠ some [] ∧
    (transformSendRequest request).1.bcc ≠ some [] ∧
    (transformSendRequest request).1.reply_to ≠ some [] ∧
    (request.cc = none → (transformSendRequest request).1.cc = none) ∧
    (request.cc = some (.list []) → (transformSendRequest request).1.cc = none) := by
  have hc : (transformSendRequest request).1.cc =
      keepNonempty (toParticipants request.cc) := rfl
  have hb : (transformSendRequest request).1.bcc =
      keepNonempty (toParticipants request.bcc) := rfl
  have hr : (transformSendRequest request).1.reply_to =
      keepNonempty (toParticipants request.replyTo) := rfl
  refine ⟨?_, ?_, ?_, ?_, ?_, ?_, ?_, ?_⟩
  · rw [hc]; exact keepNonempty_ne_none_iff _
  · rw [hb]; exact keepNonempty_ne_none_iff _
  · rw [hr]; exact keepNonempty_ne_none_iff _
  · rw [hc]; exact keepNonempty_ne_some_nil _
  · rw [hb]; exact keepNonempty_ne_some_nil _
  · rw [hr]; exact keepNonempty_ne_some_nil _
  · intro h; rw [hc, h]; rfl
  · intro h; rw [hc, h]; rfl

/-- C5 witness: the explicit empty cc list leaves the key out. -/
theorem C5_recipient_elision_witness :
    (transformSendRequest emptyCcReq).1.cc = none :=
  (C5_recipient_elision emptyCcReq).2.2.2.2.2.2.2 rfl

/-- C6: the domain transform output is unaffected by attachments, scheduledAt
and replyTo, which are dropped from the wire request entirely; each such
input only adds its advisory warning. -/
theorem C6_domain_drops (request : SendEmailRequest) (a : Option (List Attachment))
    (s : Option String) (rt : Option StrOrList) :
    (transformDomainSendRequest
        { request with attachments := a, scheduledAt := s, replyTo := rt }).1 =
      (transformDomainSendRequest request).1 ∧
    (someNonempty a = true →
      "nylas-resend: Attachments are not supported by Nylas domain send API. Attachments will be ignored."
        ∈ (transformDomainSendRequest
            { request with attachments := a, scheduledAt := s, replyTo := rt }).2) ∧
    (truthyOptStr s = true →
      "nylas-resend: Scheduled send is not supported by Nylas domain send API. scheduledAt will be ignored."
        ∈ (transformDomainSendRequest
            { request with attachments := a, scheduledAt := s, replyTo := rt }).2) ∧
    (truthyStrOrList rt = true →
      "nylas-resend: Reply-to is not supported by Nylas domain send API. replyTo will be ignored."
        ∈ (transformDomainSendRequest
            { request with attachments := a, scheduledAt := s, replyTo := rt }).2) := by
  refine ⟨rfl, ?_, ?_, ?_⟩
  · intro h
    simp [transformDomainSendRequest, h]
  · intro h
    simp [transformDomainSendRequest, h]
  · intro h
    simp [transformDomainSendRequest, h]

/-- C6 witness at a concrete request carrying all three unsupported inputs. -/
theorem C6_domain_drops_witness :
    (transformDomainSendRequest domainDropReq).1 =
      (transformDomainSendRequest domainDropBase).1 ∧
    "nylas-resend: Attachments are not supported by Nylas domain send API. Attachments will be ignored."
      ∈ (transformDomainSendRequest domainDropReq).2 ∧
    "nylas-resend: Scheduled send is not supported by Nylas domain send API. scheduledAt will be ignored."
      ∈ (transformDomainSendRequest domainDropReq).2 ∧
    "nylas-resend: Reply-to is not supported by Nylas domain send API. replyTo will be ignored."
      ∈ (transformDomainSendRequest domainDropReq).2 :=
  ⟨(C6_domain_drops domainDropBase dropAtts dropSched dropReplyTo).1,
   (C6_domain_drops domainDropBase dropAtts dropSched dropReplyTo).2.1 rfl,
   (C6_domain_drops domainDropBase dropAtts dropSched dropReplyTo).2.2.1 rfl,
   (C6_domain_drops domainDropBase dropAtts dropSched dropReplyTo).2.2.2 rfl⟩

/-- C7: the webhook chain yields the null outcome, without fault, for every
payload whose type field is anything other than the exact message-created
discriminator string, however well formed the rest of the payload is. -/
theorem C7_event_type_gate (payload : JSValue)
    (h : jsMemberD payload "type" ≠ JSValue.str "message.created") :
    handleInboundWebhook payload = Except.ok none := by
  have hg : isMessageCreatedWebhook payload = false := by
    cases hb : isMessageCreatedWebhook payload
    · rfl
    · exact absurd (guard_type_eq payload hb) h
  unfold handleInboundWebhook
  rw [if_neg (by simp [hg])]

/-- C7 witness: an account-lifecycle payload with a well-formed nested object
yields null. -/
theorem C7_event_type_gate_witness :
    handleInboundWebhook grantPayload = Except.ok none :=
  C7_event_type_gate grantPayload (by
    rw [show jsMemberD grantPayload "type" = JSValue.str "grant.updated" from rfl]
    intro hc
    injection hc with hs
    exact absurd hs (by decide))

/-- C8: a send request with a missing from, a missing or empty to, or a
missing subject is rejected by the facade with null data and the fixed
validation-error name, and no transport operation is invoked. -/
theorem C8_send_validation (client : ClientModel) (request : SendEmailRequest)
    (h : request.«from» = "" ∨ request.«to» = StrOrList.str "" ∨
      request.«to» = StrOrList.list [] ∨ request.subject = "") :
    ∃ msg, Emails.send client request =
      ({ data := none,
         error := some { message := msg, name := "validation_error",
                         statusCode := none } }, []) := by
  by_cases hf : request.«from» = ""
  · exact ⟨"Missing required field: from", by
      unfold Emails.send; rw [if_pos hf]; rfl⟩
  · by_cases ht : request.«to» = StrOrList.str "" ∨ request.«to» = StrOrList.list []
    · exact ⟨"Missing required field: to", by
        unfold Emails.send; rw [if_neg hf, if_pos ht]; rfl⟩
    · by_cases hs : request.subject = ""
      · exact ⟨"Missing required field: subject", by
          unfold Emails.send; rw [if_neg hf, if_neg ht, if_pos hs]; rfl⟩
      · rcases h with h | h | h | h
        · exact absurd h hf
        · exact absurd (Or.inl h) ht
        · exact absurd (Or.inr h) ht
        · exact absurd h hs

/-- C8 witness: the missing-from request is rejected without any transport
call. -/
theorem C8_send_validation_witness :
    ∃ msg, Emails.send clientStub noFromReq =
      ({ data := none,
         error := some { message := msg, name := "validation_error",
                         statusCode := none } }, []) :=
  C8_send_validation clientStub noFromReq (Or.inl rfl)

/-- C9: createdAt is the ISO rendering of the epoch-second date multiplied by
1000; at date 1700000000 it is the known literal rendering. -/
theorem C9_created_at_iso (message : NylasMessage) :
    (transformMessageToEmail message).createdAt = jsToISOString (message.date * 1000) ∧
    (message.date = 1700000000 →
      (transformMessageToEmail message).createdAt = "2023-11-14T22:13:20.000Z") := by
  refine ⟨rfl, fun h => ?_⟩
  have hc : (transformMessageToEmail message).createdAt =
      jsToISOString (message.date * 1000) := rfl
  rw [hc, h]
  decide

/-- C9 witness at a concrete message. -/
theorem C9_created_at_iso_witness :
    (transformMessageToEmail sampleMessage).createdAt = "2023-11-14T22:13:20.000Z" :=
  (C9_created_at_iso sampleMessage).2 rfl

/-- C10: Emails.get with the empty (falsy) emailId returns null data and the
fixed validation error, and performs no transport call. -/
theorem C10_get_empty_id (client : ClientModel) :
    Emails.get client "" =
      ({ data := none,
         error := some { message := "Missing required parameter: emailId",
                         name := "validation_error", statusCode := none } }, []) := by
  unfold Emails.get
  rw [if_pos rfl]
  rfl

/-- C1 counterexample: a payload passing both guards whose nested message
object lacks a from field makes the webhook chain throw a type fault instead
of returning an event or null. -/
theorem C1_counterexample :
    handleInboundWebhook noFromPayload =
      Except.error "TypeError: cannot read properties of undefined" := rfl

/-- C1 amended: the webhook chain faults on no payload rejected by a guard,
yielding null there; on guard-passing payloads whose nested message is well
formed (from present; recipient lists and attachments absent, falsy, or
arrays free of null and undefined entries) it returns a structured event.
Only a guard-passing payload with a malformed nested message can fault. -/
theorem C1_no_fault_amended :
    (∀ payload : JSValue, isMessageCreatedWebhook payload = false →
      handleInboundWebhook payload = Except.ok none) ∧
    (∀ payload : JSValue, isMessageCreatedWebhook payload = true →
      messageWellFormed (jsMemberD (jsMemberD payload "data") "object") = true →
      ∃ event, handleInboundWebhook payload = Except.ok (some event)) := by
  constructor
  · intro payload h
    unfold handleInboundWebhook
    rw [if_neg (by simp [h])]
  · intro payload hg hwf
    have hnylas : isNylasMessageWebhook payload = true := by
      unfold isMessageCreatedWebhook at hg
      rw [Bool.and_eq_true] at hg
      exact hg.1
    obtain ⟨hp, hd, ho⟩ := nylasGuard_parts payload hnylas
    have hpn : notNullish payload = true := isObjectNonNull_notNullish _ hp
    have hdn : notNullish (jsMemberD payload "data") = true :=
      isObjectNonNull_notNullish _ hd
    have hon : notNullish (jsMemberD (jsMemberD payload "data") "object") = true :=
      isObjectNonNull_notNullish _ ho
    unfold messageWellFormed at hwf
    simp only [Bool.and_eq_true, and_assoc] at hwf
    obtain ⟨hfrom, hto, hcc, hbcc, hrt, hatt⟩ := hwf
    have hstep : handleInboundWebhook payload =
        (transformWebhookToInboundEvent payload).map some := by
      unfold handleInboundWebhook
      rw [if_pos hg]
    rw [hstep]
    unfold transformWebhookToInboundEvent
    rw [jsMember_of_notNullish payload "data" hpn]
    simp only [bindOk]
    rw [jsMember_of_notNullish (jsMemberD payload "data") "object" hdn]
    simp only [bindOk]
    rw [jsMember_of_notNullish payload "time" hpn]
    simp only [bindOk]
    rw [jsMember_of_notNullish _ "id" hon]
    simp only [bindOk]
    rw [jsMember_of_notNullish _ "from" hon]
    simp only [bindOk]
    obtain ⟨w0, hw0⟩ := jsIndex0_of_notNullish _ hfrom
    rw [hw0]
    simp only [bindOk]
    cases hc : jsTruthy w0
    · rw [if_neg (by simp)]
      simp only [pureOk, bindOk]
      rw [jsMember_of_notNullish _ "to" hon]
      simp only [bindOk]
      obtain ⟨wto, hwto⟩ := participantsToEmailsJS_ok _ hto
      rw [hwto]
      simp only [bindOk]
      rw [jsMember_of_notNullish _ "cc" hon]
      simp only [bindOk]
      obtain ⟨wcc, hwcc⟩ := participantsToEmailsJS_ok _ hcc
      rw [hwcc]
      simp only [bindOk]
      rw [jsMember_of_notNullish _ "bcc" hon]
      simp only [bindOk]
      obtain ⟨wbcc, hwbcc⟩ := participantsToEmailsJS_ok _ hbcc
      rw [hwbcc]
      simp only [bindOk]
      rw [jsMember_of_notNullish _ "reply_to" hon]
      simp only [bindOk]
      obtain ⟨wrt, hwrt⟩ := participantsToEmailsJS_ok _ hrt
      rw [hwrt]
      simp only [bindOk]
      rw [jsMember_of_notNullish _ "subject" hon]
      simp only [bindOk]
      rw [jsMember_of_notNullish _ "body" hon]
      simp only [bindOk]
      rw [jsMember_of_notNullish _ "attachments" hon]
      simp only [bindOk]
      obtain ⟨wa, hwa⟩ := mapAttachmentsJS_ok _ hatt
      rw [hwa]
      simp only [bindOk]
      exact ⟨_, rfl⟩
    · rw [if_pos rfl]
      obtain ⟨s, hs⟩ := formatParticipantJS_ok w0 hc
      rw [hs]
      simp only [bindOk]
      rw [jsMember_of_notNullish _ "to" hon]
      simp only [bindOk]
      obtain ⟨wto, hwto⟩ := participantsToEmailsJS_ok _ hto
      rw [hwto]
      simp only [bindOk]
      rw [jsMember_of_notNullish _ "cc" hon]
      simp only [bindOk]
      obtain ⟨wcc, hwcc⟩ := participantsToEmailsJS_ok _ hcc
      rw [hwcc]
      simp only [bindOk]
      rw [jsMember_of_notNullish _ "bcc" hon]
      simp only [bindOk]
      obtain ⟨wbcc, hwbcc⟩ := participantsToEmailsJS_ok _ hbcc
      rw [hwbcc]
      simp only [bindOk]
      rw [jsMember_of_notNullish _ "reply_to" hon]
      simp only [bindOk]
      obtain ⟨wrt, hwrt⟩ := participantsToEmailsJS_ok _ hrt
      rw [hwrt]
      simp only [bindOk]
      rw [jsMember_of_notNullish _ "subject" hon]
      simp only [bindOk]
      rw [jsMember_of_notNullish _ "body" hon]
      simp only [bindOk]
      rw [jsMember_of_notNullish _ "attachments" hon]
      simp only [bindOk]
      obtain ⟨wa, hwa⟩ := mapAttachmentsJS_ok _ hatt
      rw [hwa]
      simp only [bindOk]
      exact ⟨_, rfl⟩

/-- C1 amended witness: a primitive payload yields null without fault; the
well-formed message-created payload yields an event. -/
theorem C1_no_fault_amended_witness :
    handleInboundWebhook (JSValue.num 5) = Except.ok none ∧
    ∃ event, handleInboundWebhook goodPayload = Except.ok (some event) :=
  ⟨C1_no_fault_amended.1 (JSValue.num 5) rfl,
   C1_no_fault_amended.2 goodPayload rfl rfl⟩

/-! Lemmas for the round-trip claim: behaviour of the regex model on the
display string built by formatParticipant. -/

theorem dropWhile_eq_self_of_head (p : Char → Bool) (l : List Char)
    (h : ∀ c, l.head? = some c → p c = false) : l.dropWhile p = l := by
  cases l with
  | nil => rfl
  | cons c cs =>
    rw [List.dropWhile_cons, h c rfl]
    simp

theorem jsTrim_eq_self (l : List Char)
    (hhead : ∀ c, l.head? = some c → jsIsWhitespace c = false)
    (hlast : ∀ c, l.getLast? = some c → jsIsWhitespace c = false) :
    jsTrim l = l := by
  unfold jsTrim
  rw [dropWhile_eq_self_of_head _ _ hhead]
  rw [dropWhile_eq_self_of_head _ _
    (fun c hc => hlast c (by rwa [← List.head?_reverse]))]
  exact List.reverse_reverse l

theorem tailOk_append (e : List Char) (he : e ≠ [])
    (helt : ∀ c ∈ e, isLineTerm c = false) : tailOk (e ++ ['>']) = some e := by
  unfold tailOk
  rw [if_pos (by rw [List.getLast?_concat]), List.dropLast_concat]
  rw [if_neg (by simp [he])]
  rw [if_pos (by rw [List.all_eq_true]; intro x hx; rw [helt x hx]; rfl)]

theorem checkLt_cons (c : Char) (l : List Char) :
    checkLt (c :: l) = if c = '<' then tailOk l else none := rfl

theorem scanA_cons_eq (pre : List Char) (c : Char) (cs : List Char) :
    scanA pre (c :: cs) =
      match checkLt ((c :: cs).dropWhile jsIsWhitespace) with
      | some body => some (pre.reverse, body)
      | none => if isLineTerm c then none else scanA (c :: pre) cs := rfl

theorem scanA_cons_none (pre : List Char) (c : Char) (cs : List Char)
    (h : checkLt ((c :: cs).dropWhile jsIsWhitespace) = none) :
    scanA pre (c :: cs) = if isLineTerm c then none else scanA (c :: pre) cs := by
  rw [scanA_cons_eq, h]

theorem scanA_cons_some (pre : List Char) (c : Char) (cs : List Char)
    (body : List Char)
    (h : checkLt ((c :: cs).dropWhile jsIsWhitespace) = some body) :
    scanA pre (c :: cs) = some (pre.reverse, body) := by
  rw [scanA_cons_eq, h]

theorem dropWhile_append_of_ne_nil (p : Char → Bool) (l r : List Char)
    (h : l.dropWhile p ≠ []) : (l ++ r).dropWhile p = l.dropWhile p ++ r := by
  induction l with
  | nil => exact absurd rfl h
  | cons c cs ih =>
    rw [List.dropWhile_cons] at h
    rw [List.cons_append, List.dropWhile_cons, List.dropWhile_cons]
    by_cases hc : p c = true
    · rw [if_pos hc] at h
      rw [if_pos hc, if_pos hc]
      exact ih h
    · rw [if_neg hc, if_neg hc]
      rfl

theorem dropWhile_ne_nil_of_getLast (p : Char → Bool) (l : List Char)
    (hne : l ≠ []) (h : ∀ c, l.getLast? = some c → p c = false) :
    l.dropWhile p ≠ [] := by
  intro hempty
  rw [List.dropWhile_eq_nil_iff] at hempty
  have hfalse := h (l.getLast hne) (List.getLast?_eq_getLast l hne)
  have htrue := hempty _ (List.getLast_mem hne)
  simp [hfalse] at htrue

theorem head_dropWhile_not (p : Char → Bool) (l : List Char) :
    ∀ c, (l.dropWhile p).head? = some c → p c = false := by
  induction l with
  | nil => intro c hc; simp at hc
  | cons a as ih =>
    intro c hc
    rw [List.dropWhile_cons] at hc
    by_cases ha : p a = true
    · rw [if_pos ha] at hc
      exact ih c hc
    · rw [if_neg ha] at hc
      rw [List.head?_cons] at hc
      injection hc with hac
      rw [← hac]
      simpa using ha

theorem mem_of_mem_dropWhile (p : Char → Bool) (l : List Char) (c : Char)
    (h : c ∈ l.dropWhile p) : c ∈ l :=
  (List.dropWhile_sublist _).subset h

theorem head?_append_left (l r : List Char) (hl : l ≠ []) :
    (l ++ r).head? = l.head? := by
  cases l with
  | nil => exact absurd rfl hl
  | cons a t => rfl

theorem headI_spec (l : List Char) (c : Char) (h : l.head? = some c) :
    l.headI = c := by
  cases l with
  | nil => simp at h
  | cons a t =>
    rw [List.head?_cons] at h
    injection h with hac

theorem getLastI_spec (l : List Char) (c : Char) (h : l.getLast? = some c) :
    l.getLastI = c := by
  rw [List.getLastI_eq_getLast?, h]

theorem matchAngle_cons (c : Char) (cs : List Char) :
    matchAngle (c :: cs) =
      if isLineTerm c then
        match checkLt (c :: cs) with
        | some body => some (none, body)
        | none => none
      else
        match scanA [c] cs with
        | some (n, body) => some (some n, body)
        | none =>
          match checkLt (c :: cs) with
          | some body => some (none, body)
          | none => none := rfl

theorem scanA_append (e : List Char) (he : e ≠ [])
    (helt : ∀ c ∈ e, isLineTerm c = false) :
    ∀ (m : List Char) (pre : List Char),
      (∀ c ∈ m, isLineTerm c = false ∧ c ≠ '<') →
      (∀ c, m.getLast? = some c → jsIsWhitespace c = false) →
      scanA pre (m ++ ' ' :: '<' :: (e ++ ['>'])) = some (pre.reverse ++ m, e) := by
  intro m
  induction m with
  | nil =>
    intro pre _ _
    have hck : checkLt ((' ' :: '<' :: (e ++ ['>'])).dropWhile jsIsWhitespace) =
        some e := by
      rw [List.dropWhile_cons, if_pos (by decide), List.dropWhile_cons,
        if_neg (by decide), checkLt_cons, if_pos rfl, tailOk_append e he helt]
    rw [List.nil_append, scanA_cons_some _ _ _ _ hck, List.append_nil]
  | cons c m' ih =>
    intro pre hchars hlast
    have hMne : (c :: m').dropWhile jsIsWhitespace ≠ [] :=
      dropWhile_ne_nil_of_getLast _ _ (by simp) hlast
    have happ : ((c :: m') ++ (' ' :: '<' :: (e ++ ['>']))).dropWhile jsIsWhitespace =
        (c :: m').dropWhile jsIsWhitespace ++ (' ' :: '<' :: (e ++ ['>'])) :=
      dropWhile_append_of_ne_nil _ _ _ hMne
    obtain ⟨h0, t0, hM0⟩ : ∃ h0 t0,
        (c :: m').dropWhile jsIsWhitespace = h0 :: t0 := by
      cases hM : (c :: m').dropWhile jsIsWhitespace with
      | nil => exact absurd hM hMne
      | cons x xs => exact ⟨x, xs, rfl⟩
    have hh0mem : h0 ∈ (c :: m') :=
      mem_of_mem_dropWhile _ _ _ (by rw [hM0]; exact List.mem_cons_self h0 t0)
    have hh0ne : h0 ≠ '<' := (hchars h0 hh0mem).2
    have hnone : checkLt ((c :: (m' ++ ' ' :: '<' :: (e ++ ['>']))).dropWhile
        jsIsWhitespace) = none := by
      rw [← List.cons_append, happ, hM0, List.cons_append, checkLt_cons,
        if_neg hh0ne]
    rw [List.cons_append, scanA_cons_none _ _ _ hnone,
      if_neg (by simp [(hchars c (List.mem_cons_self c m')).1])]
    have ih2 := ih (c :: pre)
      (fun x hx => hchars x (List.mem_cons_of_mem c hx))
      (fun x hx => hlast x (by
        cases m' with
        | nil => simp at hx
        | cons a t => rw [List.getLast?_cons_cons]; exact hx))
    rw [ih2]
    simp [List.append_assoc]

theorem matchAngle_name_email (n e : List Char)
    (hn : n ≠ []) (hnchars : ∀ c ∈ n, isLineTerm c = false ∧ c ≠ '<')
    (hnlast : ∀ c, n.getLast? = some c → jsIsWhitespace c = false)
    (he : e ≠ []) (helt : ∀ c ∈ e, isLineTerm c = false) :
    matchAngle (n ++ ' ' :: '<' :: (e ++ ['>'])) = some (some n, e) := by
  cases n with
  | nil => exact absurd rfl hn
  | cons c m' =>
    rw [List.cons_append, matchAngle_cons]
    rw [if_neg (by simp [(hnchars c (List.mem_cons_self c m')).1])]
    have hsc := scanA_append e he helt m' [c]
      (fun x hx => hnchars x (List.mem_cons_of_mem c hx))
      (fun x hx => hnlast x (by
        cases m' with
        | nil => simp at hx
        | cons a t => rw [List.getLast?_cons_cons]; exact hx))
    rw [hsc]
    rfl

theorem data_asString (s : String) : s.data.asString = s := rfl

theorem parseEmailAddress_of_match (s : String) (nn ee : List Char)
    (hm : matchAngle (jsTrim s.data) = some (some nn, ee))
    (hne : ¬ (jsTrim nn).isEmpty = true) :
    parseEmailAddress s =
      { name := some (jsTrim nn).asString, email := (jsTrim ee).asString } := by
  unfold parseEmailAddress
  simp only [hm]
  simp [hne]

/-- C3 counterexample: a participant whose nonempty name carries leading
whitespace is not restored by the round trip through the display string;
both the reparsed participant and the reformatted string change. -/
theorem C3_counterexample :
    parseEmailAddress (formatParticipant spaceNameParticipant) ≠
      spaceNameParticipant ∧
    formatParticipant (parseEmailAddress (formatParticipant spaceNameParticipant)) ≠
      formatParticipant spaceNameParticipant := by
  constructor
  · decide
  · decide

/-- C3 amended: the round trip through the display string restores the
participant whenever the nonempty name is trimmed and free of opening angle
brackets and line terminators, and the email is nonempty, trimmed and free of
line terminators; the reformatted display string is then also unchanged. -/
theorem C3_roundtrip_amended (p : NylasEmailParticipant) (n : String)
    (hname : p.name = some n)
    (hn0 : n.data ≠ [])
    (hnchars : n.data.all (fun c => !isLineTerm c && !(c == '<')) = true)
    (hnhead : jsIsWhitespace n.data.headI = false)
    (hnlast : jsIsWhitespace n.data.getLastI = false)
    (he0 : p.email.data ≠ [])
    (hechars : p.email.data.all (fun c => !isLineTerm c) = true)
    (hehead : jsIsWhitespace p.email.data.headI = false)
    (helast : jsIsWhitespace p.email.data.getLastI = false) :
    parseEmailAddress (formatParticipant p) = p ∧
    formatParticipant (parseEmailAddress (formatParticipant p)) =
      formatParticipant p := by
  have hnchars2 : ∀ c ∈ n.data, isLineTerm c = false ∧ c ≠ '<' := by
    intro c hcm
    have hx := List.all_eq_true.mp hnchars c hcm
    rw [Bool.and_eq_true] at hx
    refine ⟨by simpa using hx.1, ?_⟩
    have hx2 := hx.2
    simp at hx2
    exact hx2
  have hechars2 : ∀ c ∈ p.email.data, isLineTerm c = false := by
    intro c hcm
    simpa using List.all_eq_true.mp hechars c hcm
  have hnhead2 : ∀ c, n.data.head? = some c → jsIsWhitespace c = false := by
    intro c hc
    rw [← headI_spec n.data c hc]
    exact hnhead
  have hnlast2 : ∀ c, n.data.getLast? = some c → jsIsWhitespace c = false := by
    intro c hc
    rw [← getLastI_spec n.data c hc]
    exact hnlast
  have hehead2 : ∀ c, p.email.data.head? = some c → jsIsWhitespace c = false := by
    intro c hc
    rw [← headI_spec p.email.data c hc]
    exact hehead
  have helast2 : ∀ c, p.email.data.getLast? = some c → jsIsWhitespace c = false := by
    intro c hc
    rw [← getLastI_spec p.email.data c hc]
    exact helast
  have hnne : n ≠ "" := fun hcon => hn0 (by rw [hcon])
  have hfmt : formatParticipant p = n ++ " <" ++ p.email ++ ">" := by
    unfold formatParticipant
    rw [hname]
    simp [hnne]
  have hdata : (n ++ " <" ++ p.email ++ ">").data =
      n.data ++ ' ' :: '<' :: (p.email.data ++ ['>']) := by
    simp [String.data_append]
  have hshape : n.data ++ ' ' :: '<' :: (p.email.data ++ ['>']) =
      (n.data ++ ' ' :: '<' :: p.email.data) ++ ['>'] := by
    simp
  have htrim : jsTrim ((n ++ " <" ++ p.email ++ ">").data) =
      (n ++ " <" ++ p.email ++ ">").data := by
    apply jsTrim_eq_self
    · intro c hc
      rw [hdata, head?_append_left _ _ hn0] at hc
      exact hnhead2 c hc
    · intro c hc
      rw [hdata, hshape, List.getLast?_concat] at hc
      injection hc with hc2
      rw [← hc2]
      decide
  have hmatch : matchAngle (jsTrim ((formatParticipant p).data)) =
      some (some n.data, p.email.data) := by
    rw [hfmt, htrim, hdata]
    exact matchAngle_name_email n.data p.email.data hn0 hnchars2 hnlast2
      he0 hechars2
  have hne2 : ¬ (jsTrim n.data).isEmpty = true := by
    rw [jsTrim_eq_self n.data hnhead2 hnlast2]
    simp [hn0]
  have hp := parseEmailAddress_of_match (formatParticipant p) n.data
    p.email.data hmatch hne2
  rw [jsTrim_eq_self n.data hnhead2 hnlast2,
    jsTrim_eq_self p.email.data hehead2 helast2, data_asString, data_asString] at hp
  have hpp : ({ name := some n, email := p.email } : NylasEmailParticipant) = p := by
    rw [← hname]
  rw [hpp] at hp
  exact ⟨hp, by rw [hp]⟩

/-- C3 amended witness at an ordinary named participant. -/
theorem C3_roundtrip_amended_witness :
    parseEmailAddress (formatParticipant roundtripParticipant) =
      roundtripParticipant ∧
    formatParticipant (parseEmailAddress (formatParticipant roundtripParticipant)) =
      formatParticipant roundtripParticipant :=
  C3_roundtrip_amended roundtripParticipant "John Doe" rfl (by decide) (by decide)
    (by decide) (by decide) (by decide) (by decide) (by decide) (by decide)

end NylasResend
